import Mathlib

/-!
Shallow embedding of the conversation thread manager of the mint-bot
repository (src/chat_manager.py, src/ai_handler.py, src/config_loader.py).

Modelling conventions:
  * Python dicts (which preserve insertion order) are association lists
    `List (Int × β)` with `dictGet` / `dictInsert` / `dictMem` mirroring
    `d[k]`, `d[k] = v` and `k in d`.
  * `deque` values are plain Lean lists (only `append` / `appendleft` /
    iteration are used by the source).
  * Python floats (`time.time()` timestamps) are modelled as rationals `ℚ`;
    `time.time()` itself is passed in explicitly as a `now` argument.
  * The tiktoken tokenizer is an explicit parameter `encode : String → List Nat`
    (a list of token ids); `count_tokens` only ever takes its length.
  * File contents are modelled at the parsed-JSON level: the persisted file is
    an optional `SerializedChats` value (absent file = `none`).  The int↔str
    key conversion done by `_serialize_active_chats` / `_deserialize_active_chats`
    is modelled faithfully by `pyStrInt` (Python `str` on ints) and
    `pyParseInt` (Python `int` on strings, restricted to an optional sign
    followed by decimal digits, the forms relevant here).
-/

/-! ### Python dict model -/

def dictMem {β : Type} (d : List (Int × β)) (k : Int) : Bool :=
  d.any (fun kv => kv.1 == k)

def dictGet {β : Type} (d : List (Int × β)) (k : Int) : Option β :=
  (d.find? (fun kv => kv.1 == k)).map (fun kv => kv.2)

/-- Python `d[k] = v`: replaces in place if the key is present (keeping its
position in iteration order), otherwise appends at the end. -/
def dictInsert {β : Type} (d : List (Int × β)) (k : Int) (v : β) : List (Int × β) :=
  if dictMem d k then d.map (fun kv => if kv.1 == k then (k, v) else kv)
  else d ++ [(k, v)]

/-! ### Data model (chat_manager.py) -/

/-- One message of a thread: `{"role": str, "content": str, "telegram_message_id": int}`. -/
structure Message where
  role : String
  content : String
  telegram_message_id : Int
  deriving DecidableEq

/-- The per-thread record stored in `active_chats`:
`{"messages": deque, "last_interaction": float, "chat_id": int}`. -/
structure ChatData where
  messages : List Message
  last_interaction : ℚ
  chat_id : Int
  deriving DecidableEq

/-- `ChatHistoriesType = Dict[int, Dict[str, Any]]`, insertion ordered. -/
abbrev ChatHistories := List (Int × ChatData)

/-- The mutable state and configuration of a `ChatManager` instance. -/
structure ChatManager where
  active_chats : ChatHistories
  system_prompt_tokens : Nat
  context_window_tokens : Nat
  chat_history_expiry_seconds : ℚ
  deriving DecidableEq

/-! ### Token counting (ai_handler.py) -/

/-- `count_tokens(text)`: `0` for falsy text (`None` or `""`), otherwise the
number of tokens the tokenizer produces. -/
def count_tokens (encode : String → List Nat) (text : Option String) : Nat :=
  match text with
  | none => 0
  | some t => if t = "" then 0 else (encode t).length

/-- A message in the format handed to the AI: a dict with keys `role`,
`content` and possibly `name`. -/
structure AiMessage where
  role : String
  content : String
  name : Option String
  deriving DecidableEq

/-- The `message.items()` iteration order for the dicts built by this code
base: `role`, `content`, then `name` when present. -/
def AiMessage.items (m : AiMessage) : List (String × String) :=
  [("role", m.role), ("content", m.content)] ++
    (match m.name with
     | some n => [("name", n)]
     | none => [])

/-- `count_message_tokens(message)`: starts from `4` and, for each key/value
pair, adds `count_tokens(value)` and subtracts `1` when the key is `"name"`. -/
def count_message_tokens (encode : String → List Nat) (m : AiMessage) : Int :=
  m.items.foldl
    (fun num kv =>
      let num := num + (count_tokens encode (some kv.2) : Int)
      if kv.1 = "name" then num - 1 else num)
    4

example :
    count_message_tokens (fun s => s.toList.map Char.toNat)
      { role := "user", content := "hi", name := none } = 10 := by decide

example :
    count_message_tokens (fun s => s.toList.map Char.toNat)
      { role := "user", content := "hi", name := some "x" } = 10 := by decide

/-! ### Thread manager operations (chat_manager.py) -/

/-- `_find_thread_key_for_reply` inner loop: walk the `active_chats` items in
order; inside a thread whose `chat_id` matches, scan its messages for the
replied-to telegram id and return that thread key on a hit. -/
def findThreadKeyAux (replied_to_telegram_message_id : Int) (chat_id : Int) :
    ChatHistories → Option Int
  | [] => none
  | (thread_key, chat_data) :: rest =>
    if chat_data.chat_id = chat_id then
      if chat_data.messages.any
          (fun m => m.telegram_message_id == replied_to_telegram_message_id) then
        some thread_key
      else findThreadKeyAux replied_to_telegram_message_id chat_id rest
    else findThreadKeyAux replied_to_telegram_message_id chat_id rest

/-- `ChatManager._find_thread_key_for_reply`. -/
def find_thread_key_for_reply (mgr : ChatManager)
    (replied_to_telegram_message_id : Int) (chat_id : Int) : Option Int :=
  findThreadKeyAux replied_to_telegram_message_id chat_id mgr.active_chats

/-- `ChatManager.start_new_chat`; `time.time()` is the explicit `now`. -/
def start_new_chat (mgr : ChatManager) (initial_user_message_content : String)
    (initial_user_telegram_message_id : Int) (chat_id : Int)
    (bot_first_reply_telegram_message_id : Int) (bot_first_reply_content : String)
    (now : ℚ) : ChatManager :=
  let history : List Message :=
    [{ role := "user", content := initial_user_message_content,
       telegram_message_id := initial_user_telegram_message_id },
     { role := "assistant", content := bot_first_reply_content,
       telegram_message_id := bot_first_reply_telegram_message_id }]
  { mgr with
      active_chats := dictInsert mgr.active_chats initial_user_telegram_message_id
        { messages := history, last_interaction := now, chat_id := chat_id } }

/-- `ChatManager.add_message_to_chat`; `time.time()` is the explicit `now`.
Returns the updated state together with the boolean the method returns. -/
def add_message_to_chat (mgr : ChatManager) (thread_key : Int) (role : String)
    (content : String) (telegram_message_id : Int) (now : ℚ) : ChatManager × Bool :=
  match dictGet mgr.active_chats thread_key with
  | none => (mgr, false)
  | some chat_data =>
      ({ mgr with
          active_chats := dictInsert mgr.active_chats thread_key
            { messages := chat_data.messages ++
                [{ role := role, content := content,
                   telegram_message_id := telegram_message_id }],
              last_interaction := now,
              chat_id := chat_data.chat_id } }, true)

/-- `ChatManager.cleanup_expired_chats`; `time.time()` is the explicit `now`.
The second component is the Python return value: the method body ends without a
`return` statement, so it returns `None` (it only logs the removed count). -/
def cleanup_expired_chats (mgr : ChatManager) (now : ℚ) : ChatManager × Option Nat :=
  ({ mgr with
      active_chats := mgr.active_chats.filter
        (fun kv => ¬ now - kv.2.last_interaction > mgr.chat_history_expiry_seconds) },
   none)

/-- The `{"role": ..., "content": ...}` dict built for each stored message
inside `get_history_for_ai` (never carries a `name` key). -/
def aiFormat (m : Message) : AiMessage :=
  { role := m.role, content := m.content, name := none }

/-- The trimming loop of `get_history_for_ai`: iterate the stored messages
newest-to-oldest (the input list is the reversed deque), admit a message when
the running token count stays within the context window (`appendleft`, i.e.
cons onto the accumulator, which therefore stays in chronological order), and
`break` on the first message that would exceed it. -/
def trimLoop (encode : String → List Nat) (budget : Int) :
    List Message → Int → List AiMessage → List AiMessage
  | [], _, acc => acc
  | m :: rest, current_tokens, acc =>
    let fmt := aiFormat m
    let msg_tokens := count_message_tokens encode fmt
    if current_tokens + msg_tokens ≤ budget then
      trimLoop encode budget rest (current_tokens + msg_tokens) (fmt :: acc)
    else acc

/-- `ChatManager.get_history_for_ai`.  The method never writes to
`self.active_chats` (trimming is view-only), so the state component of the
result is the incoming state. -/
def get_history_for_ai (encode : String → List Nat) (mgr : ChatManager)
    (thread_key : Int) : ChatManager × Option (List AiMessage) :=
  match dictGet mgr.active_chats thread_key with
  | none => (mgr, none)
  | some chat_data =>
      (mgr,
       some (trimLoop encode (mgr.context_window_tokens : Int)
          chat_data.messages.reverse (mgr.system_prompt_tokens : Int) []))

/-! ### Persistence (chat_manager.py, serialization layer)

Python `str` on an int and Python `int` on a string, for the decimal forms
that occur as JSON keys. -/

/-- The character of a single decimal digit. -/
def digitChar (d : Nat) : Char :=
  match d with
  | 0 => Char.mk 48 (by decide)
  | 1 => Char.mk 49 (by decide)
  | 2 => Char.mk 50 (by decide)
  | 3 => Char.mk 51 (by decide)
  | 4 => Char.mk 52 (by decide)
  | 5 => Char.mk 53 (by decide)
  | 6 => Char.mk 54 (by decide)
  | 7 => Char.mk 55 (by decide)
  | 8 => Char.mk 56 (by decide)
  | _ => Char.mk 57 (by decide)

/-- The decimal digit of a character, when it is one. -/
def charDigit? (c : Char) : Option Nat :=
  if 48 ≤ c.toNat ∧ c.toNat ≤ 57 then some (c.toNat - 48) else none

/-- The decimal character sequence of a natural number (most significant
digit first), as Python `str` produces it. -/
def natChars (n : Nat) : List Char :=
  if n = 0 then [digitChar 0] else ((Nat.digits 10 n).map digitChar).reverse

/-- Python `str` on an int. -/
def pyStrInt (k : Int) : String :=
  if k < 0 then String.mk (Char.mk 45 (by decide) :: natChars k.natAbs)
  else String.mk (natChars k.natAbs)

/-- Parse a nonempty all-digit character sequence as a natural number
(leading zeros allowed, as Python `int` allows them). -/
def parseNatDigits (cs : List Char) : Option Nat :=
  if cs = [] then none
  else if cs.all (fun c => (charDigit? c).isSome) then
    some (Nat.ofDigits 10 ((cs.map (fun c => c.toNat - 48)).reverse))
  else none

/-- Model of Python `int` on a string, covering an optional leading minus sign
followed by decimal digits (Python additionally tolerates surrounding
whitespace, a plus sign and underscores, forms that never occur here); any
other string raises `ValueError`, modelled as `none`. -/
def pyParseInt (s : String) : Option Int :=
  if s.toList = [] then none
  else if s.toList.headI.toNat = 45 then
    (parseNatDigits s.toList.tail).map (fun n => -(Int.ofNat n))
  else (parseNatDigits s.toList).map (fun n => Int.ofNat n)

/-- A persisted per-thread record as found in the JSON file: each field is
`none` when the corresponding key is missing or has an unusable shape (the
conditions that raise `KeyError` / `TypeError` during deserialization). -/
structure RawChatData where
  messages : Option (List Message)
  last_interaction : Option ℚ
  chat_id : Option Int
  deriving DecidableEq

/-- The parsed JSON object persisted by `save_chat_histories`: insertion
ordered string keys mapping to raw records. -/
abbrev SerializedChats := List (String × RawChatData)

/-- `ChatManager._serialize_active_chats`: stringify each key, keep the fields. -/
def serialize_active_chats (chats : ChatHistories) : SerializedChats :=
  chats.map (fun kv =>
    (pyStrInt kv.1,
     { messages := some kv.2.messages,
       last_interaction := some kv.2.last_interaction,
       chat_id := some kv.2.chat_id }))

/-- The `try` body of `_deserialize_active_chats` for one entry: parse the key
back to an int and read the three fields; any failure (`ValueError` from the
key, `KeyError`/`TypeError` from a field) yields `none`. -/
def deserializeEntry (k : String) (d : RawChatData) : Option (Int × ChatData) :=
  match pyParseInt k, d.messages, d.last_interaction, d.chat_id with
  | some key, some msgs, some li, some cid =>
      some (key, { messages := msgs, last_interaction := li, chat_id := cid })
  | _, _, _, _ => none

/-- `ChatManager._deserialize_active_chats`: entries are processed in order;
an entry that fails to deserialize is skipped (logged), the rest are inserted
into the fresh dict. -/
def deserialize_active_chats (data : SerializedChats) : ChatHistories :=
  data.foldl
    (fun acc kv =>
      match deserializeEntry kv.1 kv.2 with
      | some e => dictInsert acc e.1 e.2
      | none => acc)
    []

/-- `ChatManager.save_chat_histories`.  The file is modelled as
`Option SerializedChats` (absent = `none`): with no active chats the method
returns `True` without touching the file; otherwise it overwrites the file
with the serialized store and returns `True`.  (The `IOError`/`TypeError`
branches concern the OS file layer, outside this model.) -/
def save_chat_histories (mgr : ChatManager) (file : Option SerializedChats) :
    Option SerializedChats × Bool :=
  if mgr.active_chats = [] then (file, true)
  else (some (serialize_active_chats mgr.active_chats), true)

/-- `ChatManager.load_chat_histories`.  With no file present the store is
reset to empty; otherwise the file contents are deserialized and
`cleanup_expired_chats` runs immediately (`time.time()` is the explicit
`now`).  The parse-error branches (`IOError`, `json.JSONDecodeError`) concern
unreadable bytes, outside this parsed-JSON model. -/
def load_chat_histories (mgr : ChatManager) (file : Option SerializedChats)
    (now : ℚ) : ChatManager × Bool :=
  match file with
  | none => ({ mgr with active_chats := [] }, true)
  | some data =>
      let loaded := { mgr with active_chats := deserialize_active_chats data }
      ((cleanup_expired_chats loaded now).1, true)

/-! ### User profile ledger (config_loader.py) -/

/-- One `_known_users_data` entry: a dict that may carry `description`,
`name` and `last_updated_by_ai` keys. -/
structure UserInfo where
  description : Option String
  name : Option String
  last_updated_by_ai : Option String
  deriving DecidableEq

/-- `_known_users_data`, insertion ordered. -/
abbrev KnownUsers := List (Int × UserInfo)

/-- `update_user_in_memory(user_id, description, name)`; the timestamp string
`time.strftime(...)` is the explicit `now_str`.  Adds an empty entry for an
unknown id, overwrites the `description`/`name` fields whenever the
corresponding argument is not `None` (setting `updated`), and stamps
`last_updated_by_ai` exactly when `updated` is set.  Returns the updated
ledger together with the boolean the function returns. -/
def update_user_in_memory (users : KnownUsers) (user_id : Int)
    (description : Option String) (name : Option String) (now_str : String) :
    KnownUsers × Bool :=
  let users :=
    if dictMem users user_id then users
    else dictInsert users user_id
      { description := none, name := none, last_updated_by_ai := none }
  let entry := (dictGet users user_id).getD
    { description := none, name := none, last_updated_by_ai := none }
  let step1 :=
    match description with
    | some d => ({ entry with description := some d }, true)
    | none => (entry, false)
  let step2 :=
    match name with
    | some n => ({ step1.1 with name := some n }, true)
    | none => step1
  let entry := step2.1
  let updated := step2.2
  if updated then
    (dictInsert users user_id { entry with last_updated_by_ai := some now_str }, true)
  else (users, false)

/-! ### Dict model lemmas -/

theorem find?_append_of_none {α : Type} (p : α → Bool) (l₁ l₂ : List α)
    (h : l₁.find? p = none) : (l₁ ++ l₂).find? p = l₂.find? p := by
  induction l₁ with
  | nil => rfl
  | cons a l ih =>
    by_cases hpa : p a = true
    · rw [List.find?_cons_of_pos _ hpa] at h
      exact absurd h (by simp)
    · rw [List.find?_cons_of_neg _ (by simpa using hpa)] at h
      rw [List.cons_append, List.find?_cons_of_neg _ (by simpa using hpa)]
      exact ih h

theorem find?_append_of_some {α : Type} (p : α → Bool) (l₁ l₂ : List α) (x : α)
    (h : l₁.find? p = some x) : (l₁ ++ l₂).find? p = some x := by
  induction l₁ with
  | nil => simp at h
  | cons a l ih =>
    by_cases hpa : p a = true
    · rw [List.find?_cons_of_pos _ hpa] at h
      rw [List.cons_append, List.find?_cons_of_pos _ hpa]
      exact h
    · rw [List.find?_cons_of_neg _ (by simpa using hpa)] at h
      rw [List.cons_append, List.find?_cons_of_neg _ (by simpa using hpa)]
      exact ih h

theorem dictMem_false_iff {β : Type} (d : List (Int × β)) (k : Int) :
    dictMem d k = false ↔ ∀ kv ∈ d, kv.1 ≠ k := by
  simp [dictMem]

theorem dictFind?_eq_none_of_not_mem {β : Type} (d : List (Int × β)) (k : Int)
    (h : dictMem d k = false) : d.find? (fun kv => kv.1 == k) = none := by
  rw [dictMem_false_iff] at h
  rw [List.find?_eq_none]
  intro kv hmem
  simpa using h kv hmem

theorem dictGet_eq_none_of_not_mem {β : Type} (d : List (Int × β)) (k : Int)
    (h : dictMem d k = false) : dictGet d k = none := by
  unfold dictGet
  rw [dictFind?_eq_none_of_not_mem d k h]
  rfl

theorem dictInsert_of_not_mem {β : Type} (d : List (Int × β)) (k : Int) (v : β)
    (h : dictMem d k = false) : dictInsert d k v = d ++ [(k, v)] := by
  simp [dictInsert, h]

theorem find?_overwriteMap_self {β : Type} (d : List (Int × β)) (k : Int) (v : β)
    (h : dictMem d k = true) :
    (d.map (fun kv => if kv.1 == k then (k, v) else kv)).find? (fun kv => kv.1 == k)
      = some (k, v) := by
  induction d with
  | nil => simp [dictMem] at h
  | cons kv d ih =>
    rw [List.map_cons]
    by_cases hk : (kv.1 == k) = true
    · rw [if_pos hk, List.find?_cons_of_pos _ (by simp)]
    · rw [if_neg (by simpa using hk), List.find?_cons_of_neg _ (by simpa using hk)]
      refine ih ?_
      simp only [dictMem, List.any_cons, hk, Bool.false_or] at h
      exact h

theorem find?_overwriteMap_ne {β : Type} (d : List (Int × β)) (k k' : Int) (v : β)
    (h : k' ≠ k) :
    (d.map (fun kv => if kv.1 == k then (k, v) else kv)).find? (fun kv => kv.1 == k')
      = d.find? (fun kv => kv.1 == k') := by
  induction d with
  | nil => rfl
  | cons kv d ih =>
    rw [List.map_cons]
    by_cases hk : (kv.1 == k) = true
    · have h2 : (kv.1 == k') = false := by
        have hkk : kv.1 = k := by simpa using hk
        simp [hkk]
        exact fun hh => h hh.symm
      rw [if_pos hk, List.find?_cons_of_neg _ (by simp; exact fun hh => h hh.symm),
        List.find?_cons_of_neg _ (by simp [h2]), ih]
    · rw [if_neg (by simpa using hk)]
      by_cases hkv : (kv.1 == k') = true
      · rw [@List.find?_cons_of_pos _ (fun kv => kv.1 == k') kv
            (d.map (fun kv => if kv.1 == k then (k, v) else kv)) hkv,
          @List.find?_cons_of_pos _ (fun kv => kv.1 == k') kv d hkv]
      · rw [@List.find?_cons_of_neg _ (fun kv => kv.1 == k') kv
            (d.map (fun kv => if kv.1 == k then (k, v) else kv)) (by simpa using hkv),
          @List.find?_cons_of_neg _ (fun kv => kv.1 == k') kv d (by simpa using hkv), ih]

theorem dictGet_dictInsert_self {β : Type} (d : List (Int × β)) (k : Int) (v : β) :
    dictGet (dictInsert d k v) k = some v := by
  unfold dictInsert
  by_cases h : dictMem d k
  · rw [if_pos h]
    unfold dictGet
    rw [find?_overwriteMap_self d k v h]
    rfl
  · rw [if_neg h]
    unfold dictGet
    rw [find?_append_of_none _ _ _
      (dictFind?_eq_none_of_not_mem d k (by simpa using h))]
    rw [List.find?_cons_of_pos _ (by simp)]
    rfl

theorem dictGet_dictInsert_ne {β : Type} (d : List (Int × β)) (k k' : Int) (v : β)
    (h : k' ≠ k) : dictGet (dictInsert d k v) k' = dictGet d k' := by
  unfold dictInsert
  by_cases hmem : dictMem d k
  · rw [if_pos hmem]
    unfold dictGet
    rw [find?_overwriteMap_ne d k k' v h]
  · rw [if_neg hmem]
    unfold dictGet
    cases hfind : d.find? (fun kv => kv.1 == k') with
    | some x => rw [find?_append_of_some _ _ _ _ hfind]
    | none =>
      rw [find?_append_of_none _ _ _ hfind,
        @List.find?_cons_of_neg _ (fun kv => kv.1 == k') (k, v) []
          (by simp; exact fun hh => h hh.symm)]
      rfl

/-! ### Decimal string round-trip lemmas -/

theorem charDigit?_digitChar (d : Nat) (h : d < 10) :
    charDigit? (digitChar d) = some d := by
  interval_cases d <;> decide

theorem natChars_all_digits (n : Nat) :
    ∀ c ∈ natChars n, (charDigit? c).isSome = true := by
  intro c hc
  unfold natChars at hc
  by_cases h : n = 0
  · rw [if_pos h] at hc
    simp at hc
    subst hc
    decide
  · rw [if_neg h] at hc
    rw [List.mem_reverse, List.mem_map] at hc
    obtain ⟨d, hd, rfl⟩ := hc
    have hlt : d < 10 := Nat.digits_lt_base (by norm_num) hd
    rw [charDigit?_digitChar d hlt]
    rfl

theorem natChars_ne_nil (n : Nat) : natChars n ≠ [] := by
  unfold natChars
  by_cases h : n = 0
  · rw [if_pos h]
    decide
  · rw [if_neg h]
    simp [Nat.digits_ne_nil_iff_ne_zero.mpr h]

theorem parseNatDigits_natChars (n : Nat) : parseNatDigits (natChars n) = some n := by
  by_cases h : n = 0
  · subst h
    decide
  · unfold parseNatDigits
    rw [if_neg (natChars_ne_nil n),
      if_pos (List.all_eq_true.mpr (fun c hc => natChars_all_digits n c hc))]
    unfold natChars
    rw [if_neg h, List.map_reverse, List.reverse_reverse, List.map_map]
    have hmap : (Nat.digits 10 n).map ((fun c => c.toNat - 48) ∘ digitChar)
        = Nat.digits 10 n := by
      have hcongr : ∀ d ∈ Nat.digits 10 n,
          ((fun c => c.toNat - 48) ∘ digitChar) d = id d := by
        intro d hd
        have hlt : d < 10 := Nat.digits_lt_base (by norm_num) hd
        have hcd := charDigit?_digitChar d hlt
        unfold charDigit? at hcd
        by_cases hrange : 48 ≤ (digitChar d).toNat ∧ (digitChar d).toNat ≤ 57
        · rw [if_pos hrange] at hcd
          simpa using hcd
        · rw [if_neg hrange] at hcd
          exact absurd hcd (by simp)
      rw [List.map_congr_left hcongr, List.map_id]
    rw [hmap, Nat.ofDigits_digits]

theorem pyParseInt_pyStrInt (k : Int) : pyParseInt (pyStrInt k) = some k := by
  unfold pyStrInt
  by_cases hk : k < 0
  · rw [if_pos hk]
    unfold pyParseInt
    rw [show (String.mk (Char.mk 45 (by decide) :: natChars k.natAbs)).toList
        = Char.mk 45 (by decide) :: natChars k.natAbs from rfl]
    rw [if_neg (by simp), if_pos (by rfl),
      show (Char.mk 45 (by decide) :: natChars k.natAbs).tail = natChars k.natAbs from rfl,
      parseNatDigits_natChars]
    simp only [Option.map_some']
    congr 1
    rw [Int.ofNat_eq_natCast]
    omega
  · rw [if_neg hk]
    unfold pyParseInt
    rw [show (String.mk (natChars k.natAbs)).toList = natChars k.natAbs from rfl]
    cases hcs : natChars k.natAbs with
    | nil => exact absurd hcs (natChars_ne_nil _)
    | cons c rest =>
      have hc : (charDigit? c).isSome = true := by
        refine natChars_all_digits k.natAbs c ?_
        rw [hcs]
        exact List.mem_cons_self c rest
      have h45 : ¬ c.toNat = 45 := by
        unfold charDigit? at hc
        by_cases hrange : 48 ≤ c.toNat ∧ c.toNat ≤ 57
        · omega
        · rw [if_neg hrange] at hc
          exact absurd hc (by simp)
      rw [if_neg (by simp), if_neg (by simpa using h45), ← hcs, parseNatDigits_natChars]
      simp only [Option.map_some']
      congr 1
      rw [Int.ofNat_eq_natCast]
      omega

/-! ### Deserialization lemmas -/

theorem dictMem_append {β : Type} (d₁ d₂ : List (Int × β)) (k : Int) :
    dictMem (d₁ ++ d₂) k = (dictMem d₁ k || dictMem d₂ k) := by
  simp [dictMem, List.any_append]

theorem deserialize_go (data : SerializedChats) :
    ∀ acc : ChatHistories,
      (∀ e ∈ data.filterMap (fun kv => deserializeEntry kv.1 kv.2),
        dictMem acc e.1 = false) →
      ((data.filterMap (fun kv => deserializeEntry kv.1 kv.2)).map Prod.fst).Nodup →
      data.foldl
        (fun acc kv =>
          match deserializeEntry kv.1 kv.2 with
          | some e => dictInsert acc e.1 e.2
          | none => acc)
        acc = acc ++ data.filterMap (fun kv => deserializeEntry kv.1 kv.2) := by
  induction data with
  | nil => intro acc _ _; simp
  | cons kv data ih =>
    intro acc hfresh hnodup
    rw [List.foldl_cons]
    cases hde : deserializeEntry kv.1 kv.2 with
    | none =>
      simp only [List.filterMap_cons, hde] at hfresh hnodup ⊢
      exact ih acc hfresh hnodup
    | some e =>
      simp only [List.filterMap_cons, hde] at hfresh hnodup ⊢
      have hefresh : dictMem acc e.1 = false := hfresh e (List.mem_cons_self e _)
      rw [dictInsert_of_not_mem acc e.1 e.2 hefresh]
      rw [List.map_cons, List.nodup_cons] at hnodup
      have htail := ih (acc ++ [e]) (fun e2 he2 => by
        rw [dictMem_append]
        have h1 : dictMem acc e2.1 = false := hfresh e2 (List.mem_cons_of_mem e he2)
        have h2 : dictMem [e] e2.1 = false := by
          have : e.1 ≠ e2.1 := by
            intro hcontra
            exact hnodup.1 (hcontra ▸ List.mem_map_of_mem Prod.fst he2)
          simp [dictMem, this]
        rw [h1, h2]
        rfl) hnodup.2
      rw [htail, List.append_assoc]
      rfl

theorem deserializeEntry_serialize (k : Int) (d : ChatData) :
    deserializeEntry (pyStrInt k)
      { messages := some d.messages, last_interaction := some d.last_interaction,
        chat_id := some d.chat_id } = some (k, d) := by
  unfold deserializeEntry
  rw [pyParseInt_pyStrInt]

theorem serialize_entries (chats : ChatHistories) :
    (serialize_active_chats chats).filterMap (fun kv => deserializeEntry kv.1 kv.2)
      = chats := by
  unfold serialize_active_chats
  rw [List.filterMap_map]
  have hfn : ((fun kv : String × RawChatData => deserializeEntry kv.1 kv.2) ∘
      (fun kv : Int × ChatData =>
        (pyStrInt kv.1,
         ({ messages := some kv.2.messages,
            last_interaction := some kv.2.last_interaction,
            chat_id := some kv.2.chat_id } : RawChatData))))
      = (some : Int × ChatData → Option (Int × ChatData)) := by
    funext kv
    exact deserializeEntry_serialize kv.1 kv.2
  rw [hfn, List.filterMap_some]

theorem deserialize_serialize (chats : ChatHistories)
    (hnodup : (chats.map Prod.fst).Nodup) :
    deserialize_active_chats (serialize_active_chats chats) = chats := by
  unfold deserialize_active_chats
  rw [deserialize_go (serialize_active_chats chats) []
    (fun e _ => rfl)
    (by rw [serialize_entries]; exact hnodup)]
  rw [serialize_entries]
  rfl

/-! ### Persistence round-trip: claims C1 and C10 -/

theorem load_chat_histories_none (mgr : ChatManager) (now : ℚ) :
    load_chat_histories mgr none now = ({ mgr with active_chats := [] }, true) := rfl

theorem load_chat_histories_some (mgr : ChatManager) (data : SerializedChats) (now : ℚ) :
    load_chat_histories mgr (some data) now =
      ((cleanup_expired_chats
          { mgr with active_chats := deserialize_active_chats data } now).1, true) := rfl

theorem cleanup_keeps_fresh (mgr : ChatManager) (now : ℚ)
    (hfresh : ∀ kv ∈ mgr.active_chats,
      now - kv.2.last_interaction ≤ mgr.chat_history_expiry_seconds) :
    (cleanup_expired_chats mgr now).1 = mgr := by
  unfold cleanup_expired_chats
  have hfilter : mgr.active_chats.filter
      (fun kv => ¬ now - kv.2.last_interaction > mgr.chat_history_expiry_seconds)
      = mgr.active_chats := by
    rw [List.filter_eq_self]
    intro kv hkv
    simp only [decide_eq_true_eq, not_lt]
    exact hfresh kv hkv
  rw [hfilter]

/-- Claim C1 (amended): for every valid store (distinct thread keys) in which
no thread is already stale at load time, saving with `save_chat_histories`
(starting from an absent file) and loading back with `load_chat_histories`
restores exactly the same store: same thread keys in the same order, same
turn sequences with role, content and external message id, same chat ids and
identical `last_interaction` timestamps (exact equality, hence within any
tolerance). -/
theorem C1_save_load_round_trip (mgr : ChatManager) (now : ℚ)
    (hnodup : (mgr.active_chats.map Prod.fst).Nodup)
    (hfresh : ∀ kv ∈ mgr.active_chats,
      now - kv.2.last_interaction ≤ mgr.chat_history_expiry_seconds) :
    (load_chat_histories mgr (save_chat_histories mgr none).1 now).1 = mgr := by
  by_cases hempty : mgr.active_chats = []
  · have hsave : (save_chat_histories mgr none).1 = none := by
      unfold save_chat_histories
      rw [if_pos hempty]
    rw [hsave, load_chat_histories_none]
    rw [← hempty]
  · have hsave : (save_chat_histories mgr none).1
        = some (serialize_active_chats mgr.active_chats) := by
      unfold save_chat_histories
      rw [if_neg hempty]
    rw [hsave, load_chat_histories_some, deserialize_serialize _ hnodup]
    exact cleanup_keeps_fresh mgr now hfresh

/-- A store with a single thread whose `last_interaction` lies 500 seconds
before the load time: nothing is stale, the round trip must be exact. -/
def exFreshMgr : ChatManager :=
  { active_chats :=
      [(11,
        { messages :=
            [{ role := "user", content := "hi", telegram_message_id := 11 },
             { role := "assistant", content := "hello", telegram_message_id := 12 }],
          last_interaction := 500, chat_id := 7 })],
    system_prompt_tokens := 0,
    context_window_tokens := 4000,
    chat_history_expiry_seconds := 259200 }

theorem exFreshMgr_fresh :
    ∀ kv ∈ exFreshMgr.active_chats,
      (1000 : ℚ) - kv.2.last_interaction ≤ exFreshMgr.chat_history_expiry_seconds := by
  intro kv hkv
  simp only [exFreshMgr, List.mem_singleton] at hkv
  subst hkv
  norm_num [exFreshMgr]

theorem C1_save_load_round_trip_witness :
    ((exFreshMgr.active_chats.map Prod.fst).Nodup ∧
      ∀ kv ∈ exFreshMgr.active_chats,
        (1000 : ℚ) - kv.2.last_interaction ≤ exFreshMgr.chat_history_expiry_seconds) ∧
    (load_chat_histories exFreshMgr (save_chat_histories exFreshMgr none).1 1000).1
      = exFreshMgr :=
  ⟨⟨by decide, exFreshMgr_fresh⟩,
    C1_save_load_round_trip exFreshMgr 1000 (by decide) exFreshMgr_fresh⟩

/-- A store with a single thread whose `last_interaction` is 0: at load time
1000000 it is older than the 259200-second expiry window. -/
def exStaleMgr : ChatManager :=
  { active_chats :=
      [(1,
        { messages := [{ role := "user", content := "hi", telegram_message_id := 1 }],
          last_interaction := 0, chat_id := 7 })],
    system_prompt_tokens := 0,
    context_window_tokens := 4000,
    chat_history_expiry_seconds := 259200 }

/-- Claim C1 counterexample: `load_chat_histories` runs `cleanup_expired_chats`
immediately after deserializing, so a valid store containing a thread whose
`last_activity_time` is older than the expiry window does not survive the
round trip: the loaded store has lost the thread and is not structurally equal
to the saved one. -/
theorem C1_counterexample :
    (load_chat_histories exStaleMgr (save_chat_histories exStaleMgr none).1 1000000).1
      ≠ exStaleMgr := by
  have hsave : (save_chat_histories exStaleMgr none).1
      = some (serialize_active_chats exStaleMgr.active_chats) := by
    unfold save_chat_histories
    rw [if_neg (by decide)]
  have hload :
      (load_chat_histories exStaleMgr (save_chat_histories exStaleMgr none).1
        1000000).1.active_chats = [] := by
    rw [hsave, load_chat_histories_some,
      deserialize_serialize exStaleMgr.active_chats (by decide)]
    show exStaleMgr.active_chats.filter
      (fun kv => ¬ (1000000 : ℚ) - kv.2.last_interaction
          > exStaleMgr.chat_history_expiry_seconds) = []
    rw [List.filter_eq_nil_iff]
    intro kv hkv
    simp only [exStaleMgr, List.mem_singleton] at hkv
    subst hkv
    norm_num [exStaleMgr]
  intro hcontra
  rw [hcontra] at hload
  exact absurd hload (by decide)

/-- Claim C10: provided the well-formed records carry pairwise distinct keys
(always the case for a file produced by `save_chat_histories` from a dict),
`_deserialize_active_chats` returns exactly the well-formed records, in file
order: a record that fails deserialization (non-integer string key, missing
field, wrong shape) is skipped individually and every other record is kept;
one bad entry never empties the store. -/
theorem C10_bad_entries_skipped (data : SerializedChats)
    (hnodup : ((data.filterMap (fun kv => deserializeEntry kv.1 kv.2)).map Prod.fst).Nodup) :
    deserialize_active_chats data
      = data.filterMap (fun kv => deserializeEntry kv.1 kv.2) := by
  unfold deserialize_active_chats
  rw [deserialize_go data [] (fun e _ => rfl) hnodup]
  rfl

/-- A persisted file holding, in order: a well-formed record under key "11", a
record with a non-integer key, a record missing its `last_interaction` field,
and a well-formed record under key "-7". -/
def exSerialized : SerializedChats :=
  [("11",
    { messages := some [{ role := "user", content := "hi", telegram_message_id := 11 }],
      last_interaction := some 500, chat_id := some 7 }),
   ("abc",
    { messages := some [{ role := "user", content := "bad", telegram_message_id := 3 }],
      last_interaction := some 600, chat_id := some 7 }),
   ("5",
    { messages := some [{ role := "user", content := "bad2", telegram_message_id := 4 }],
      last_interaction := none, chat_id := some 7 }),
   ("-7",
    { messages := some [{ role := "assistant", content := "ok", telegram_message_id := 9 }],
      last_interaction := some 700, chat_id := some 8 })]

theorem C10_bad_entries_skipped_witness :
    ((exSerialized.filterMap (fun kv => deserializeEntry kv.1 kv.2)).map Prod.fst).Nodup ∧
    deserialize_active_chats exSerialized
      = exSerialized.filterMap (fun kv => deserializeEntry kv.1 kv.2) ∧
    deserialize_active_chats exSerialized =
      [(11,
        { messages := [{ role := "user", content := "hi", telegram_message_id := 11 }],
          last_interaction := 500, chat_id := 7 }),
       (-7,
        { messages := [{ role := "assistant", content := "ok", telegram_message_id := 9 }],
          last_interaction := 700, chat_id := 8 })] :=
  ⟨by decide, C10_bad_entries_skipped exSerialized (by decide), by decide⟩

/-! ### Claim C3: start_new_chat on an existing key -/

/-- A store already holding a thread under key 5. -/
def exDupMgr : ChatManager :=
  { active_chats :=
      [(5,
        { messages :=
            [{ role := "user", content := "old start", telegram_message_id := 5 },
             { role := "assistant", content := "old reply", telegram_message_id := 6 },
             { role := "user", content := "old follow-up", telegram_message_id := 8 }],
          last_interaction := 100, chat_id := 7 })],
    system_prompt_tokens := 0,
    context_window_tokens := 4000,
    chat_history_expiry_seconds := 259200 }

/-- Claim C3 counterexample: `start_new_chat` performs no duplicate check.
Called on key 5, which is already in use, it does not fail: it silently
replaces the stored three-turn thread with the fresh two-turn thread, so the
previously stored thread is not left unchanged. -/
theorem C3_counterexample :
    dictGet (start_new_chat exDupMgr "again" 5 7 9 "new reply" 200).active_chats 5
      ≠ dictGet exDupMgr.active_chats 5 := by decide

/-- Claim C3 (amended): `start_new_chat` never fails and never preserves an
existing thread under the same key: after the call the store maps the key to
the fresh two-turn thread (opening user turn, first assistant reply) with
`last_interaction = now`, whether or not the key was already in use, and every
other key is untouched.  There is no `DuplicateKey` failure path. -/
theorem C3_start_new_chat_overwrites (mgr : ChatManager) (content : String)
    (key : Int) (cid : Int) (bid : Int) (bcontent : String) (now : ℚ) :
    dictGet (start_new_chat mgr content key cid bid bcontent now).active_chats key
      = some
        { messages :=
            [{ role := "user", content := content, telegram_message_id := key },
             { role := "assistant", content := bcontent, telegram_message_id := bid }],
          last_interaction := now, chat_id := cid }
    ∧ ∀ k2, k2 ≠ key →
        dictGet (start_new_chat mgr content key cid bid bcontent now).active_chats k2
          = dictGet mgr.active_chats k2 := by
  constructor
  · exact dictGet_dictInsert_self mgr.active_chats key _
  · intro k2 hk2
    exact dictGet_dictInsert_ne mgr.active_chats key k2 _ hk2

theorem C3_start_new_chat_overwrites_witness :
    dictGet (start_new_chat exDupMgr "again" 5 7 9 "new reply" 200).active_chats 5
      = some
        { messages :=
            [{ role := "user", content := "again", telegram_message_id := 5 },
             { role := "assistant", content := "new reply", telegram_message_id := 9 }],
          last_interaction := 200, chat_id := 7 }
    ∧ ((3 : Int) ≠ 5 ∧
        dictGet (start_new_chat exDupMgr "again" 5 7 9 "new reply" 200).active_chats 3
          = dictGet exDupMgr.active_chats 3) :=
  ⟨(C3_start_new_chat_overwrites exDupMgr "again" 5 7 9 "new reply" 200).1,
   ⟨by decide,
    (C3_start_new_chat_overwrites exDupMgr "again" 5 7 9 "new reply" 200).2 3 (by decide)⟩⟩

/-! ### Claim C4: cleanup_expired_chats -/

/-- Claim C4 (amended): `cleanup_expired_chats(now)` keeps exactly the threads
with `now - last_interaction ≤ expiry` (equivalently, removes exactly those
whose `last_activity_time` is older than `now - expiry`), preserving the
relative order of the survivors and touching nothing else in them; but it does
not return the removed count — the Python method returns `None` (the count is
only logged). -/
theorem C4_cleanup_exact (mgr : ChatManager) (now : ℚ) :
    (∀ kv, kv ∈ (cleanup_expired_chats mgr now).1.active_chats ↔
        (kv ∈ mgr.active_chats ∧
          now - kv.2.last_interaction ≤ mgr.chat_history_expiry_seconds))
    ∧ (cleanup_expired_chats mgr now).1.active_chats.Sublist mgr.active_chats
    ∧ (cleanup_expired_chats mgr now).2 = none := by
  refine ⟨?_, ?_, rfl⟩
  · intro kv
    unfold cleanup_expired_chats
    simp only [List.mem_filter, decide_eq_true_eq, not_lt]
  · exact List.filter_sublist mgr.active_chats

/-- A store with one stale thread (last activity 0) at cleanup time 1000000
with a 259200-second window. -/
def exStaleMgr4 : ChatManager :=
  { active_chats :=
      [(2,
        { messages := [{ role := "user", content := "old", telegram_message_id := 2 }],
          last_interaction := 0, chat_id := 9 })],
    system_prompt_tokens := 0,
    context_window_tokens := 4000,
    chat_history_expiry_seconds := 259200 }

/-- Claim C4 counterexample: at time 1000000 the single stale thread of
`exStaleMgr4` is removed (the count of removed threads is 1), yet the call
does not return that count: the method returns `None`. -/
theorem C4_counterexample :
    (cleanup_expired_chats exStaleMgr4 1000000).1.active_chats = []
    ∧ (cleanup_expired_chats exStaleMgr4 1000000).2 ≠ some 1 := by
  constructor
  · show exStaleMgr4.active_chats.filter
      (fun kv => ¬ (1000000 : ℚ) - kv.2.last_interaction
          > exStaleMgr4.chat_history_expiry_seconds) = []
    rw [List.filter_eq_nil_iff]
    intro kv hkv
    simp only [exStaleMgr4, List.mem_singleton] at hkv
    subst hkv
    norm_num [exStaleMgr4]
  · decide

/-! ### Claim C5: get_history_for_ai is view-only -/

/-- Claim C5: for every thread key present in the store,
`get_history_for_ai` leaves the manager state completely unchanged — in
particular the stored thread keeps its full turn sequence, its
`last_interaction` and its `chat_id`, and every other entry is untouched. -/
theorem C5_get_history_view_only (encode : String → List Nat) (mgr : ChatManager)
    (key : Int) (d : ChatData) (h : dictGet mgr.active_chats key = some d) :
    (get_history_for_ai encode mgr key).1 = mgr
    ∧ dictGet (get_history_for_ai encode mgr key).1.active_chats key = some d := by
  unfold get_history_for_ai
  rw [h]
  exact ⟨rfl, h⟩

/-- A store with a single two-turn thread under key 1, for exercising the
view-only property with a concrete tokenizer. -/
def exViewMgr : ChatManager :=
  { active_chats :=
      [(1,
        { messages :=
            [{ role := "user", content := "question", telegram_message_id := 1 },
             { role := "assistant", content := "answer", telegram_message_id := 2 }],
          last_interaction := 50, chat_id := 4 })],
    system_prompt_tokens := 3,
    context_window_tokens := 40,
    chat_history_expiry_seconds := 259200 }

/-- The character-level tokenizer used to instantiate claim C5 concretely. -/
def exViewEncode : String → List Nat := fun s => s.toList.map Char.toNat

theorem C5_get_history_view_only_witness :
    dictGet exViewMgr.active_chats 1 = some
      { messages :=
          [{ role := "user", content := "question", telegram_message_id := 1 },
           { role := "assistant", content := "answer", telegram_message_id := 2 }],
        last_interaction := 50, chat_id := 4 }
    ∧ (get_history_for_ai exViewEncode exViewMgr 1).1 = exViewMgr :=
  ⟨by decide,
   (C5_get_history_view_only exViewEncode exViewMgr 1
      { messages :=
          [{ role := "user", content := "question", telegram_message_id := 1 },
           { role := "assistant", content := "answer", telegram_message_id := 2 }],
        last_interaction := 50, chat_id := 4 }
      (by decide)).1⟩

/-! ### Claim C7: add_message_to_chat -/

/-- Claim C7: `add_message_to_chat` on an unknown thread key returns `False`
and leaves the whole state unmutated; on a known key it returns `True`,
appends the new turn at the end of that thread's sequence, refreshes the
thread's `last_interaction` to the call time, keeps the thread's `chat_id`,
and leaves every other key untouched. -/
theorem C7_append_turn (mgr : ChatManager) (key : Int) (role content : String)
    (tgid : Int) (now : ℚ) :
    (dictGet mgr.active_chats key = none →
      add_message_to_chat mgr key role content tgid now = (mgr, false))
    ∧ ∀ d, dictGet mgr.active_chats key = some d →
        (add_message_to_chat mgr key role content tgid now).2 = true
        ∧ dictGet (add_message_to_chat mgr key role content tgid now).1.active_chats key
            = some
              { messages := d.messages ++
                  [{ role := role, content := content, telegram_message_id := tgid }],
                last_interaction := now, chat_id := d.chat_id }
        ∧ ∀ k2, k2 ≠ key →
            dictGet (add_message_to_chat mgr key role content tgid now).1.active_chats k2
              = dictGet mgr.active_chats k2 := by
  constructor
  · intro h
    unfold add_message_to_chat
    rw [h]
  · intro d h
    unfold add_message_to_chat
    rw [h]
    refine ⟨rfl, ?_, ?_⟩
    · exact dictGet_dictInsert_self mgr.active_chats key _
    · intro k2 hk2
      exact dictGet_dictInsert_ne mgr.active_chats key k2 _ hk2

/-- A store holding a single thread under key 5, used to exercise both the
unknown-key and the known-key behaviour of `add_message_to_chat`. -/
def exAppendMgr : ChatManager :=
  { active_chats :=
      [(5,
        { messages :=
            [{ role := "user", content := "start", telegram_message_id := 5 },
             { role := "assistant", content := "reply", telegram_message_id := 6 }],
          last_interaction := 100, chat_id := 7 })],
    system_prompt_tokens := 0,
    context_window_tokens := 4000,
    chat_history_expiry_seconds := 259200 }

theorem C7_append_turn_witness :
    (dictGet exAppendMgr.active_chats 99 = none ∧
      add_message_to_chat exAppendMgr 99 "user" "lost" 50 150 = (exAppendMgr, false))
    ∧ (dictGet exAppendMgr.active_chats 5 = some
        { messages :=
            [{ role := "user", content := "start", telegram_message_id := 5 },
             { role := "assistant", content := "reply", telegram_message_id := 6 }],
          last_interaction := 100, chat_id := 7 } ∧
       (add_message_to_chat exAppendMgr 5 "user" "more" 50 150).2 = true ∧
       dictGet (add_message_to_chat exAppendMgr 5 "user" "more" 50 150).1.active_chats 5
         = some
           { messages :=
               [{ role := "user", content := "start", telegram_message_id := 5 },
                { role := "assistant", content := "reply", telegram_message_id := 6 },
                { role := "user", content := "more", telegram_message_id := 50 }],
             last_interaction := 150, chat_id := 7 }) :=
  ⟨⟨by decide,
    (C7_append_turn exAppendMgr 99 "user" "lost" 50 150).1 (by decide)⟩,
   ⟨by decide,
    ((C7_append_turn exAppendMgr 5 "user" "more" 50 150).2
      { messages :=
          [{ role := "user", content := "start", telegram_message_id := 5 },
           { role := "assistant", content := "reply", telegram_message_id := 6 }],
        last_interaction := 100, chat_id := 7 }
      (by decide)).1,
    ((C7_append_turn exAppendMgr 5 "user" "more" 50 150).2
      { messages :=
          [{ role := "user", content := "start", telegram_message_id := 5 },
           { role := "assistant", content := "reply", telegram_message_id := 6 }],
        last_interaction := 100, chat_id := 7 }
      (by decide)).2.1⟩⟩

/-! ### Claim C9: update_user_in_memory -/

/-- A profile ledger with one user whose description, name and timestamp are
already set. -/
def exUsers9 : KnownUsers :=
  [(1, { description := some "d", name := some "n", last_updated_by_ai := some "t0" })]

/-- Claim C9 counterexample: upserting user 1 with exactly the description and
name it already has returns `True` (not `False`) and overwrites the
modification timestamp (from "t0" to "t1"): the function never compares the
new values against the stored ones. -/
theorem C9_counterexample :
    (update_user_in_memory exUsers9 1 (some "d") (some "n") "t1").2 ≠ false
    ∧ (dictGet (update_user_in_memory exUsers9 1 (some "d") (some "n") "t1").1 1).map
        UserInfo.last_updated_by_ai ≠ some (some "t0") := by decide

/-- Claim C9 (amended): `update_user_in_memory` returns `True` exactly when a
description or a name argument is supplied (not `None`), regardless of whether
the supplied values differ from the stored ones; whenever it returns `True` it
stamps `last_updated_by_ai` with the current time, and when both arguments are
`None` and the user id is already known it returns `False` and leaves the
ledger unchanged. -/
theorem C9_upsert_flag (users : KnownUsers) (uid : Int)
    (description name : Option String) (ts : String) :
    (update_user_in_memory users uid description name ts).2
      = (description.isSome || name.isSome)
    ∧ (description.isSome ∨ name.isSome →
        (dictGet (update_user_in_memory users uid description name ts).1 uid).map
          UserInfo.last_updated_by_ai = some (some ts))
    ∧ (description = none → name = none → dictMem users uid = true →
        update_user_in_memory users uid description name ts = (users, false)) := by
  refine ⟨?_, ?_, ?_⟩
  · unfold update_user_in_memory
    cases description <;> cases name <;> simp
  · intro hsome
    cases description with
    | none =>
      cases name with
      | none => simp at hsome
      | some n0 =>
        show (dictGet (dictInsert _ uid _) uid).map UserInfo.last_updated_by_ai
          = some (some ts)
        rw [dictGet_dictInsert_self]
        rfl
    | some d0 =>
      cases name with
      | none =>
        show (dictGet (dictInsert _ uid _) uid).map UserInfo.last_updated_by_ai
          = some (some ts)
        rw [dictGet_dictInsert_self]
        rfl
      | some n0 =>
        show (dictGet (dictInsert _ uid _) uid).map UserInfo.last_updated_by_ai
          = some (some ts)
        rw [dictGet_dictInsert_self]
        rfl
  · intro hd hn hmem
    subst hd
    subst hn
    unfold update_user_in_memory
    rw [if_pos hmem]
    rfl

theorem C9_upsert_flag_witness :
    ((update_user_in_memory exUsers9 1 (some "d2") none "t2").2
      = ((some "d2").isSome || (none : Option String).isSome))
    ∧ ((some "d2").isSome ∨ (none : Option String).isSome)
    ∧ (dictGet (update_user_in_memory exUsers9 1 (some "d2") none "t2").1 1).map
        UserInfo.last_updated_by_ai = some (some "t2") :=
  ⟨(C9_upsert_flag exUsers9 1 (some "d2") none "t2").1,
   Or.inl (by decide),
   (C9_upsert_flag exUsers9 1 (some "d2") none "t2").2.1 (Or.inl (by decide))⟩

/-! ### Claim C6: reply lookup is conversation-scoped -/

/-- The Boolean test a thread must pass for the reply lookup: same `chat_id`
and a stored message with the replied-to telegram id. -/
def replyThreadMatches (rid : Int) (cid : Int) (kv : Int × ChatData) : Bool :=
  kv.2.chat_id == cid && kv.2.messages.any (fun m => m.telegram_message_id == rid)

theorem findThreadKeyAux_eq_find? (rid cid : Int) (chats : ChatHistories) :
    findThreadKeyAux rid cid chats
      = (chats.find? (replyThreadMatches rid cid)).map Prod.fst := by
  induction chats with
  | nil => rfl
  | cons kv rest ih =>
    obtain ⟨k, d⟩ := kv
    show (if d.chat_id = cid then _ else _) = _
    by_cases h1 : d.chat_id = cid
    · rw [if_pos h1]
      by_cases h2 : d.messages.any (fun m => m.telegram_message_id == rid) = true
      · rw [if_pos h2,
          @List.find?_cons_of_pos _ (replyThreadMatches rid cid) (k, d) rest
            (by simp [replyThreadMatches, h1, h2])]
        rfl
      · rw [if_neg h2, ih,
          @List.find?_cons_of_neg _ (replyThreadMatches rid cid) (k, d) rest
            (by simp [replyThreadMatches, h2])]
    · rw [if_neg h1, ih,
        @List.find?_cons_of_neg _ (replyThreadMatches rid cid) (k, d) rest
          (by simp [replyThreadMatches, h1])]

/-- Claim C6: `_find_thread_key_for_reply` returns the key of the first
active thread that both lives in the given `chat_id` and contains a message
with the replied-to telegram message id; whenever it returns a key, the
thread stored under it belongs to the given `chat_id` — it never returns a
thread of another conversation, even when that thread contains a message with
the same numeric id. -/
theorem C6_reply_lookup_scoped (mgr : ChatManager) (rid cid : Int) :
    find_thread_key_for_reply mgr rid cid
      = (mgr.active_chats.find? (replyThreadMatches rid cid)).map Prod.fst
    ∧ ∀ k, find_thread_key_for_reply mgr rid cid = some k →
        ∃ d, (k, d) ∈ mgr.active_chats ∧ d.chat_id = cid ∧
          ∃ m ∈ d.messages, m.telegram_message_id = rid := by
  have hchar := findThreadKeyAux_eq_find? rid cid mgr.active_chats
  refine ⟨hchar, ?_⟩
  intro k hk
  unfold find_thread_key_for_reply at hk
  rw [hchar] at hk
  cases hfind : mgr.active_chats.find? (replyThreadMatches rid cid) with
  | none => rw [hfind] at hk; exact absurd hk (by simp)
  | some kv =>
    rw [hfind] at hk
    simp only [Option.map_some'] at hk
    have hmem := List.mem_of_find?_eq_some hfind
    have hpred := List.find?_some hfind
    simp only [replyThreadMatches, Bool.and_eq_true, beq_iff_eq, List.any_eq_true]
      at hpred
    obtain ⟨hcid, m, hm, hmid⟩ := hpred
    refine ⟨kv.2, ?_, hcid, m, hm, hmid⟩
    have hk1 : kv.1 = k := Option.some.inj hk
    rw [← hk1]
    exact hmem

/-- Two threads in different conversations (chat ids 1 and 2) both containing
a message with the same numeric telegram id 555. -/
def exCrossMgr : ChatManager :=
  { active_chats :=
      [(100,
        { messages :=
            [{ role := "user", content := "conv one", telegram_message_id := 100 },
             { role := "assistant", content := "one reply", telegram_message_id := 555 }],
          last_interaction := 10, chat_id := 1 }),
       (200,
        { messages :=
            [{ role := "user", content := "conv two", telegram_message_id := 200 },
             { role := "assistant", content := "two reply", telegram_message_id := 555 }],
          last_interaction := 20, chat_id := 2 })],
    system_prompt_tokens := 0,
    context_window_tokens := 4000,
    chat_history_expiry_seconds := 259200 }

theorem C6_reply_lookup_scoped_witness :
    find_thread_key_for_reply exCrossMgr 555 2
      = (exCrossMgr.active_chats.find? (replyThreadMatches 555 2)).map Prod.fst
    ∧ find_thread_key_for_reply exCrossMgr 555 2 = some 200
    ∧ ∃ d, (200, d) ∈ exCrossMgr.active_chats ∧ d.chat_id = 2 ∧
        ∃ m ∈ d.messages, m.telegram_message_id = 555 :=
  ⟨(C6_reply_lookup_scoped exCrossMgr 555 2).1,
   by decide,
   (C6_reply_lookup_scoped exCrossMgr 555 2).2 200 (by decide)⟩

/-! ### Claim C8: per-message token estimate -/

/-- The character-level tokenizer used to instantiate claim C8 concretely
(one token per character, so any nonempty text has a positive estimate, as
with the real sub-word tokenizer). -/
def exCharEncode : String → List Nat := fun s => s.toList.map Char.toNat

/-- Claim C8 counterexample: for the message `{"role": "user", "content":
"hi"}` under a tokenizer giving one token per character,
`count_message_tokens` returns 4 + 4 + 2 = 10, not `estimate(content) + 4 =
6`: the loop adds `count_tokens` of every value in the dict, including the
role (and the name value when present), not only the content. -/
theorem C8_counterexample :
    count_message_tokens exCharEncode
        { role := "user", content := "hi", name := none }
      ≠ (count_tokens exCharEncode (some "hi") : Int) + 4 := by decide

/-- Claim C8 (amended): `count_message_tokens(turn)` equals the fixed
per-message overhead 4 plus `count_tokens` of every field value present — the
role, the content, and the name when there is one — minus 1 exactly when a
name field is present; `count_tokens` is deterministic, returns 0 on absent
(`None`) and on empty text, and returns a non-negative integer on all input. -/
theorem C8_estimate_turn (encode : String → List Nat) (m : AiMessage) :
    count_message_tokens encode m
      = 4 + (count_tokens encode (some m.role) : Int)
          + (count_tokens encode (some m.content) : Int)
          + (match m.name with
             | some n => (count_tokens encode (some n) : Int) - 1
             | none => 0)
    ∧ count_tokens encode none = 0
    ∧ count_tokens encode (some "") = 0
    ∧ ∀ t, (0 : Int) ≤ (count_tokens encode t : Int) := by
  refine ⟨?_, rfl, rfl, fun t => Int.ofNat_nonneg _⟩
  cases hname : m.name with
  | none =>
    simp only [count_message_tokens, AiMessage.items, hname, List.append_nil,
      List.foldl_cons, List.foldl_nil]
    rw [if_neg (by decide), if_neg (by decide)]
    ring
  | some n =>
    simp only [count_message_tokens, AiMessage.items, hname, List.cons_append,
      List.nil_append, List.foldl_cons, List.foldl_nil]
    rw [if_neg (show ¬("content" = "name") by decide),
      if_neg (show ¬("role" = "name") by decide),
      if_pos trivial]
    ring

/-! ### Claim C2: bounded context construction -/

/-- The admission process of the trimming loop, extracted: walk the reversed
message list with the running token counter, collect (newest first) the
messages admitted before the loop breaks. -/
def greedyTake (encode : String → List Nat) (budget : Int) :
    List Message → Int → List Message
  | [], _ => []
  | m :: rest, current_tokens =>
    if current_tokens + count_message_tokens encode (aiFormat m) ≤ budget then
      m :: greedyTake encode budget rest
        (current_tokens + count_message_tokens encode (aiFormat m))
    else []

theorem greedyTake_cons_pos (encode : String → List Nat) (budget : Int)
    (m : Message) (rest : List Message) (c : Int)
    (h : c + count_message_tokens encode (aiFormat m) ≤ budget) :
    greedyTake encode budget (m :: rest) c
      = m :: greedyTake encode budget rest
          (c + count_message_tokens encode (aiFormat m)) := by
  simp only [greedyTake]
  rw [if_pos h]

theorem greedyTake_cons_neg (encode : String → List Nat) (budget : Int)
    (m : Message) (rest : List Message) (c : Int)
    (h : ¬ c + count_message_tokens encode (aiFormat m) ≤ budget) :
    greedyTake encode budget (m :: rest) c = [] := by
  simp only [greedyTake]
  rw [if_neg h]

theorem count_message_tokens_aiFormat (encode : String → List Nat) (m : Message) :
    count_message_tokens encode (aiFormat m)
      = 4 + (count_tokens encode (some m.role) : Int)
          + (count_tokens encode (some m.content) : Int) := by
  simp only [count_message_tokens, AiMessage.items, aiFormat, List.append_nil,
    List.foldl_cons, List.foldl_nil]
  rw [if_neg (show ¬("content" = "name") by decide),
    if_neg (show ¬("role" = "name") by decide)]

theorem count_message_tokens_aiFormat_nonneg (encode : String → List Nat)
    (m : Message) : 0 ≤ count_message_tokens encode (aiFormat m) := by
  rw [count_message_tokens_aiFormat]
  have h1 := Int.ofNat_nonneg (count_tokens encode (some m.role))
  have h2 := Int.ofNat_nonneg (count_tokens encode (some m.content))
  omega

theorem trimLoop_eq_greedyTake (encode : String → List Nat) (budget : Int) :
    ∀ (l : List Message) (current : Int) (acc : List AiMessage),
      trimLoop encode budget l current acc
        = ((greedyTake encode budget l current).reverse.map aiFormat) ++ acc := by
  intro l
  induction l with
  | nil =>
    intro current acc
    rfl
  | cons m rest ih =>
    intro current acc
    show (if current + count_message_tokens encode (aiFormat m) ≤ budget then
        trimLoop encode budget rest
          (current + count_message_tokens encode (aiFormat m)) (aiFormat m :: acc)
      else acc) = _
    by_cases hle : current + count_message_tokens encode (aiFormat m) ≤ budget
    · rw [if_pos hle, ih, greedyTake_cons_pos encode budget m rest current hle]
      simp [List.reverse_cons]
    · rw [if_neg hle, greedyTake_cons_neg encode budget m rest current hle]
      rfl

theorem greedyTake_prefix (encode : String → List Nat) (budget : Int) :
    ∀ (l : List Message) (c : Int),
      greedyTake encode budget l c
        = l.take (greedyTake encode budget l c).length := by
  intro l
  induction l with
  | nil => intro c; rfl
  | cons m rest ih =>
    intro c
    by_cases hle : c + count_message_tokens encode (aiFormat m) ≤ budget
    · rw [greedyTake_cons_pos encode budget m rest c hle, List.length_cons,
        List.take_succ_cons]
      rw [← ih (c + count_message_tokens encode (aiFormat m))]
    · rw [greedyTake_cons_neg encode budget m rest c hle]
      rfl

theorem greedyTake_sum_le (encode : String → List Nat) (budget : Int) :
    ∀ (l : List Message) (c : Int),
      c + ((greedyTake encode budget l c).map
          (fun m => count_message_tokens encode (aiFormat m))).sum ≤ budget
      ∨ greedyTake encode budget l c = [] := by
  intro l
  induction l with
  | nil => intro c; right; rfl
  | cons m rest ih =>
    intro c
    by_cases hle : c + count_message_tokens encode (aiFormat m) ≤ budget
    · left
      rw [greedyTake_cons_pos encode budget m rest c hle, List.map_cons,
        List.sum_cons]
      rcases ih (c + count_message_tokens encode (aiFormat m)) with h | h
      · linarith
      · rw [h]
        simp only [List.map_nil, List.sum_nil, add_zero]
        linarith
    · right
      exact greedyTake_cons_neg encode budget m rest c hle

theorem greedyTake_stops (encode : String → List Nat) (budget : Int) :
    ∀ (l : List Message) (c : Int) (m : Message),
      l[(greedyTake encode budget l c).length]? = some m →
      budget < c + ((greedyTake encode budget l c).map
          (fun m2 => count_message_tokens encode (aiFormat m2))).sum
        + count_message_tokens encode (aiFormat m) := by
  intro l
  induction l with
  | nil =>
    intro c m h
    simp at h
  | cons m0 rest ih =>
    intro c m h
    by_cases hle : c + count_message_tokens encode (aiFormat m0) ≤ budget
    · rw [greedyTake_cons_pos encode budget m0 rest c hle] at h ⊢
      rw [List.length_cons, List.getElem?_cons_succ] at h
      have hrec := ih (c + count_message_tokens encode (aiFormat m0)) m h
      rw [List.map_cons, List.sum_cons]
      linarith
    · rw [greedyTake_cons_neg encode budget m0 rest c hle] at h ⊢
      rw [List.length_nil, List.getElem?_cons_zero] at h
      obtain rfl : m0 = m := Option.some.inj h
      simp only [List.map_nil, List.sum_nil, add_zero]
      linarith [not_le.mp hle]

theorem sum_over_reverse_map (encode : String → List Nat) (g : List Message) :
    ((g.reverse.map aiFormat).map (count_message_tokens encode)).sum
      = (g.map (fun m => count_message_tokens encode (aiFormat m))).sum := by
  rw [List.map_map, List.map_reverse, List.sum_reverse]
  rfl

/-- A tokenizer under which every message estimates to exactly 50 tokens
(4 overhead + 23 for the role + 23 for the content). -/
def ex2Encode : String → List Nat := fun _ => List.replicate 23 0

/-- Oldest turn of the [50,50,50] scenario. -/
def ex2M1 : Message := { role := "user", content := "first", telegram_message_id := 1 }

/-- Middle turn of the [50,50,50] scenario. -/
def ex2M2 : Message := { role := "assistant", content := "second", telegram_message_id := 2 }

/-- Newest turn of the [50,50,50] scenario. -/
def ex2M3 : Message := { role := "user", content := "third", telegram_message_id := 3 }

/-- A store with one thread of three 50-token turns, a 120-token context
window and a zero-token system prompt (reserved = 0). -/
def ex2Mgr : ChatManager :=
  { active_chats :=
      [(1, { messages := [ex2M1, ex2M2, ex2M3], last_interaction := 10, chat_id := 3 })],
    system_prompt_tokens := 0,
    context_window_tokens := 120,
    chat_history_expiry_seconds := 259200 }

/-- Claim C2: for every thread in the store, `get_history_for_ai` returns a
sequence `r` such that (i) the estimated token sum of `r` never exceeds the
configured context budget, (ii) `r` is the image of a suffix of the stored
turns in chronological order (the turns admitted walking newest to oldest),
and (iii) if any stored turn was left out, the newest omitted turn would have
pushed the running total (reserved system-prompt tokens plus admitted turns)
over the budget — the walk stops at the first turn that would exceed it.  In
particular, with turns of estimated sizes [50,50,50], budget 120 and
reserved 0, the result is exactly the last two turns in chronological order. -/
theorem C2_bounded_context (encode : String → List Nat) (mgr : ChatManager)
    (key : Int) (d : ChatData) (h : dictGet mgr.active_chats key = some d) :
    (∃ r, (get_history_for_ai encode mgr key).2 = some r
      ∧ (r.map (count_message_tokens encode)).sum ≤ (mgr.context_window_tokens : Int)
      ∧ r = (d.messages.drop (d.messages.length - r.length)).map aiFormat
      ∧ (r.length < d.messages.length →
          ∀ m, d.messages[d.messages.length - r.length - 1]? = some m →
            (mgr.context_window_tokens : Int) <
              (mgr.system_prompt_tokens : Int)
                + (r.map (count_message_tokens encode)).sum
                + count_message_tokens encode (aiFormat m)))
    ∧ (get_history_for_ai ex2Encode ex2Mgr 1).2
        = some [aiFormat ex2M2, aiFormat ex2M3] := by
  refine ⟨?_, by decide⟩
  refine ⟨(greedyTake encode (mgr.context_window_tokens : Int) d.messages.reverse
      (mgr.system_prompt_tokens : Int)).reverse.map aiFormat, ?_, ?_, ?_, ?_⟩
  · unfold get_history_for_ai
    rw [h]
    show some (trimLoop encode (mgr.context_window_tokens : Int) d.messages.reverse
      (mgr.system_prompt_tokens : Int) []) = _
    rw [trimLoop_eq_greedyTake encode (mgr.context_window_tokens : Int)
      d.messages.reverse (mgr.system_prompt_tokens : Int) [], List.append_nil]
  · rw [sum_over_reverse_map]
    have hBnn : (0 : Int) ≤ (mgr.context_window_tokens : Int) := Int.ofNat_nonneg _
    have hRnn : (0 : Int) ≤ (mgr.system_prompt_tokens : Int) := Int.ofNat_nonneg _
    rcases greedyTake_sum_le encode (mgr.context_window_tokens : Int)
        d.messages.reverse (mgr.system_prompt_tokens : Int) with hcase | hcase
    · linarith
    · rw [hcase]
      simp
  · have hpre := greedyTake_prefix encode (mgr.context_window_tokens : Int)
      d.messages.reverse (mgr.system_prompt_tokens : Int)
    rw [List.length_map, List.length_reverse]
    conv_lhs => rw [hpre, List.take_reverse, List.reverse_reverse]
  · intro hlt m hm
    rw [List.length_map, List.length_reverse] at hlt hm
    have hidx : d.messages.length - 1
          - (greedyTake encode (mgr.context_window_tokens : Int) d.messages.reverse
              (mgr.system_prompt_tokens : Int)).length
        = d.messages.length
          - (greedyTake encode (mgr.context_window_tokens : Int) d.messages.reverse
              (mgr.system_prompt_tokens : Int)).length - 1 := by
      omega
    have hrev : d.messages.reverse[(greedyTake encode (mgr.context_window_tokens : Int)
        d.messages.reverse (mgr.system_prompt_tokens : Int)).length]? = some m := by
      rw [List.getElem?_reverse hlt, hidx]
      exact hm
    have hstop := greedyTake_stops encode (mgr.context_window_tokens : Int)
      d.messages.reverse (mgr.system_prompt_tokens : Int) m hrev
    rw [sum_over_reverse_map]
    linarith

theorem C2_bounded_context_witness :
    dictGet ex2Mgr.active_chats 1 = some
      { messages := [ex2M1, ex2M2, ex2M3], last_interaction := 10, chat_id := 3 }
    ∧ (get_history_for_ai ex2Encode ex2Mgr 1).2
        = some [aiFormat ex2M2, aiFormat ex2M3] :=
  ⟨by decide,
   (C2_bounded_context ex2Encode ex2Mgr 1
      { messages := [ex2M1, ex2M2, ex2M3], last_interaction := 10, chat_id := 3 }
      (by decide)).2⟩
